import Mathlib

/-!
# Verification of the ImTrierbot NFT-gift backend

Shallow embedding of the two source files of the repository:

* `index.js` — the TON-polling variant: a periodic scan of recent
  transactions of a receiver address, an in-memory dedup set of processed
  transaction hashes, crediting of detected NFT transfers to registered
  users, Telegram notifications, and a daily cron job clearing the set.
* the unnamed Express service — HTTP endpoints for a user's NFT
  inventory and for collection floor prices from the Tonnel marketplace.

External systems (Firebase Realtime Database, TON Center, Getgems,
Tonnel, Telegram) are modelled by explicit oracle parameters: the data
they return, plus boolean flags for a request that throws.  Observable
effects (database reads/writes, HTTP sends, log lines) are collected in
an explicit event trace.
-/

namespace ImTrierbot

/-- One outbound message of a TON transaction, as inspected by
`checkTransaction` (`msg.source`, `msg.destination`, optional `msg.body`). -/
structure OutMsg where
  source : String
  destination : String
  body : Option String
deriving DecidableEq, Repr

/-- A transaction as returned by TON Center `getTransactions`:
the fields `checkTransaction` reads (`hash`, `out_msgs`). -/
structure Transaction where
  hash : String
  out_msgs : List OutMsg
deriving DecidableEq, Repr

/-- The NFT data assembled by `getNFTInfo` (`index.js`): the fields the
rest of the program reads.  The `attributes`, `metadata` and
`lastTransfer` fields of the source object are never inspected by any
claimed behaviour and are elided. -/
structure NFTInfo where
  id : String
  name : String
  collection : String
  image : String
  description : String
  owner : String
  priceTON : Nat
deriving DecidableEq, Repr

/-- The record `addNFTToInventory` stores under `users/<uid>/nfts/<nftId>`:
the spread of the `nftData` object with `id` overridden by the generated
key, plus `receivedAt`, `staked: false` and `gameId: null`. -/
structure StoredNFT where
  id : String
  name : String
  collection : String
  image : String
  description : String
  owner : String
  priceTON : Nat
  receivedAt : Nat
  staked : Bool
  gameId : Option String
deriving DecidableEq, Repr

/-- The `wallet` child of a user record in the database. -/
structure Wallet where
  address : String
deriving DecidableEq, Repr

/-- A user record stored under `users/<key>` in the database.  Records are
JSON objects, so a record may or may not carry a `wallet` child and may
carry its own `id` child; the remaining children are opaque. -/
structure UserRec where
  wallet : Option Wallet
  idChild : Option String
  payload : String
deriving DecidableEq, Repr

/-- The object `findUserByWallet` returns: `{ id: userId, ...users[userId] }`.
By JavaScript spread semantics the later spread overrides the preset `id`
whenever the stored record itself has an `id` child. -/
structure FoundUser where
  id : String
  idChild : Option String
  wallet : Option Wallet
  payload : String
deriving DecidableEq, Repr

/-- Observable effects of the polling variant. -/
inductive Event where
  | dbLookup (walletAddress : String)
  | fetchInfo (address : String)
  | dbWrite (userId : String) (key : String) (rec : StoredNFT)
  | notify (userId : String) (info : NFTInfo)
  | telegramSend (chatId : String) (text : String)
  | logError (msg : String)
deriving DecidableEq, Repr

/-- `true` exactly on inventory-write events. -/
def Event.isDbWrite : Event → Bool
  | .dbWrite _ _ _ => true
  | _ => false

/-- `true` exactly on notification-invocation events. -/
def Event.isNotify : Event → Bool
  | .notify _ _ => true
  | _ => false

/-- The NFT-transfer opcode `checkTransaction` looks for in message bodies. -/
def transferOpcode : String := "5fcc3d14"

/-- `pat` is a prefix of the character list. -/
def charsPrefix : List Char → List Char → Bool
  | [], _ => true
  | _ :: _, [] => false
  | a :: as, b :: bs => a == b && charsPrefix as bs

/-- `pat` occurs as a contiguous substring of the character list. -/
def charsContain (pat : List Char) : List Char → Bool
  | [] => pat.isEmpty
  | c :: cs => charsPrefix pat (c :: cs) || charsContain pat cs

/-- JavaScript `s.includes(pat)`: `pat` occurs as a substring of `s`. -/
def strIncludes (s pat : String) : Bool :=
  charsContain pat.data s.data

/-- `msg.body && msg.body.includes('5fcc3d14')`: the message has a body and
that body contains the transfer opcode as a substring. -/
def bodyHasOpcode (m : OutMsg) : Bool :=
  match m.body with
  | none => false
  | some b => strIncludes b transferOpcode

/-- `processedTransactions.add(hash)`: a JavaScript `Set` keeps insertion
order and ignores an element already present. -/
def addTx (s : List String) (h : String) : List String :=
  if h ∈ s then s else s ++ [h]

/-- The environment of one `checkTransaction` call in `index.js`:
the configured receiver address, the outcomes of the external calls
(`findUserByWallet` against the live database, `getNFTInfo` against TON
Center — both return `null` on a missing result or a request error), the
write outcome of `addNFTToInventory`, the generated NFT key and
timestamp, the Telegram bot token and the outcome of the Telegram send. -/
structure Config where
  receiver : String
  findUser : String → Option FoundUser
  getInfo : String → Option NFTInfo
  dbFail : Bool
  nftId : String
  now : Nat
  token : Option String
  notifyFail : Bool

/-- The record built by `addNFTToInventory`: `{...nftData, id: nftId,
receivedAt: Date.now(), staked: false, gameId: null}` — the generated key
overrides the `id` field of the spread data. -/
def mkStoredNFT (nftId : String) (now : Nat) (d : NFTInfo) : StoredNFT :=
  { id := nftId, name := d.name, collection := d.collection,
    image := d.image, description := d.description, owner := d.owner,
    priceTON := d.priceTON, receivedAt := now, staked := false,
    gameId := none }

/-- `addNFTToInventory(userId, nftData)` (`index.js` lines 180–201):
writes the record under `users/<userId>/nfts/<nftId>` and returns `true`;
a database error is caught, logged and yields `false` with no write. -/
def addNFTToInventory (dbFail : Bool) (nftId : String) (now : Nat)
    (userId : String) (nftData : NFTInfo) : List Event × Bool :=
  if dbFail then ([Event.logError "Ошибка добавления NFT"], false)
  else ([Event.dbWrite userId nftId (mkStoredNFT nftId now nftData)], true)

/-- The text of the Telegram notification built by `sendNotification`. -/
def notificationMessage (info : NFTInfo) : String :=
  "🎁 Получен новый NFT подарок!\n\n" ++
  "Название: " ++ info.name ++ "\n" ++
  "Коллекция: " ++ info.collection ++ "\n" ++
  "Цена: " ++ toString info.priceTON ++ " TON\n\n" ++
  "Он уже в вашем инвентаре в игре!"

/-- The body of `sendNotification`'s `try` block: no bot token (unset, or
the empty string, which is falsy) means an immediate return with no HTTP
call; otherwise the `sendMessage` POST is attempted and may throw. -/
def sendNotificationAttempt (token : Option String) (httpFail : Bool)
    (userId : String) (info : NFTInfo) : List Event × Except String Unit :=
  match token with
  | none => ([], Except.ok ())
  | some t =>
    if t = "" then ([], Except.ok ())
    else if httpFail then
      ([Event.telegramSend userId (notificationMessage info)],
        Except.error "Ошибка отправки уведомления")
    else ([Event.telegramSend userId (notificationMessage info)], Except.ok ())

/-- `sendNotification(userId, nftInfo)` (`index.js` lines 259–280): the
surrounding `try`/`catch` logs any error and resolves normally. -/
def sendNotification (token : Option String) (httpFail : Bool)
    (userId : String) (info : NFTInfo) : List Event × Except String Unit :=
  let a := sendNotificationAttempt token httpFail userId info
  match a.2 with
  | Except.ok _ => a
  | Except.error e => (a.1 ++ [Event.logError e], Except.ok ())

/-- The events one matching message produces inside `checkTransaction`'s
loop: the sender lookup, then — when the sender is registered — the NFT
info fetch, then — when info came back — the inventory write attempt, the
invocation of `sendNotification` (recorded as a `notify` event) and the
notification's own events. -/
def msgEvents (cfg : Config) (msg : OutMsg) : List Event :=
  Event.dbLookup msg.source ::
    (match cfg.findUser msg.source with
     | none => []
     | some u =>
       Event.fetchInfo msg.source ::
         (match cfg.getInfo msg.source with
          | none => []
          | some info =>
            (addNFTToInventory cfg.dbFail cfg.nftId cfg.now u.id info).1 ++
              Event.notify u.id info ::
                (sendNotification cfg.token cfg.notifyFail u.id info).1))

/-- One iteration of `checkTransaction`'s `for` loop over `out_msgs`:
a message whose destination is the receiver and whose body carries the
opcode is processed and the transaction hash is added to the dedup set;
any other message leaves state and trace unchanged. -/
def processMsg (cfg : Config) (hash : String)
    (acc : List Event × List String) (msg : OutMsg) : List Event × List String :=
  if msg.destination = cfg.receiver ∧ bodyHasOpcode msg = true then
    (acc.1 ++ msgEvents cfg msg, addTx acc.2 hash)
  else acc

/-- `checkTransaction(transaction)` (`index.js` lines 207–252): return
immediately when the hash was already processed or there are no outbound
messages; otherwise run the loop over all outbound messages.  Returns the
emitted events and the updated dedup set. -/
def checkTransaction (cfg : Config) (st : List String) (tx : Transaction) :
    List Event × List String :=
  if tx.hash ∈ st then ([], st)
  else if tx.out_msgs.isEmpty then ([], st)
  else tx.out_msgs.foldl (processMsg cfg tx.hash) ([], st)

/-- `true` when the user record has a `wallet/address` child equal to the
queried address — the condition of the Firebase query
`orderByChild('wallet/address').equalTo(walletAddress)`. -/
def walletMatches (addr : String) (u : UserRec) : Bool :=
  match u.wallet with
  | none => false
  | some w => w.address = addr

/-- The object returned for the first matching user:
`{ id: userId, ...users[userId] }` — the spread overrides `id` when the
stored record has its own `id` child. -/
def mkFoundUser (key : String) (u : UserRec) : FoundUser :=
  { id := u.idChild.getD key, idChild := u.idChild, wallet := u.wallet,
    payload := u.payload }

/-- `findUserByWallet(walletAddress)` (`index.js` lines 154–173): query
`users` for records whose `wallet/address` equals the address, take the
first key of the snapshot, and return `{ id: userId, ...users[userId] }`;
`null` when nothing matched or the query threw.  The database is the
ordered list of `(key, record)` pairs the snapshot delivers. -/
def findUserByWallet (err : Bool) (db : List (String × UserRec))
    (addr : String) : Option FoundUser :=
  if err then none
  else
    match db.filter (fun p => walletMatches addr p.2) with
    | [] => none
    | (k, u) :: _ => some (mkFoundUser k u)

/-- `getNFTPrice(nftAddress)` (`index.js` lines 125–148).  Oracles:
`gemsErr` — the Getgems GET throws; `gems` — its `response.data`
(`none` = falsy) with the optional numeric `price` field; `tonnelErr` —
the Tonnel POST throws; `tonnel` — its `response.data` as the list of
listing prices.  JavaScript truthiness: a present price of `0` fails
`response.data.price` and falls through to Tonnel. -/
def getNFTPrice (gemsErr : Bool) (gems : Option (Option Nat))
    (tonnelErr : Bool) (tonnel : Option (List Nat)) : Nat :=
  if gemsErr then 0
  else
    let fromGems : Option Nat :=
      match gems with
      | some (some p) => if p = 0 then none else some p
      | _ => none
    match fromGems with
    | some p => p
    | none =>
      if tonnelErr then 0
      else
        match tonnel with
        | some (p :: _) => p
        | _ => 0

/-- The query-string parameters of the TON Center `getTransactions`
request issued by `checkRecentTransactions`. -/
structure TxRequest where
  address : String
  limit : Nat
  to_lt : Nat
  archival : Bool
deriving DecidableEq, Repr

/-- The request `checkRecentTransactions` sends: the receiver address
with `limit: 20, to_lt: 0, archival: true`. -/
def recentTxRequest (receiver : String) : TxRequest :=
  { address := receiver, limit := 20, to_lt := 0, archival := true }

/-- `checkRecentTransactions()` (`index.js` lines 285–310): on a request
error or a response without a `result` (`resp = none`) nothing happens;
otherwise `checkTransaction` runs on each returned transaction in order,
threading the dedup set. -/
def checkRecentTransactions (cfg : Config) (resp : Option (List Transaction))
    (st : List String) : List Event × List String :=
  match resp with
  | none => ([], st)
  | some txs =>
    txs.foldl
      (fun acc tx =>
        let r := checkTransaction cfg acc.2 tx
        (acc.1 ++ r.1, r.2))
      ([], st)

/-- The delay handed to `setInterval`:
`process.env.CHECK_INTERVAL || 60000`.  The environment value is a
string; an unset variable or the empty string (both falsy) give the
60000 ms default, any other string is coerced to a number. -/
def checkIntervalMs (env : Option String) : Nat :=
  match env with
  | none => 60000
  | some s => if s = "" then 60000 else (s.toNat?).getD 0

/-- The operations of `index.js` that can touch `processedTransactions`:
a timer tick of the polling interval, a manual `POST /api/check` (both
run `checkRecentTransactions` with whatever the API returned), the
read-only `GET /api/health`, and the `0 0 * * *` cron job. -/
inductive SysAction where
  | timerTick (resp : Option (List Transaction))
  | apiCheck (resp : Option (List Transaction))
  | apiHealth
  | cronMidnight
deriving DecidableEq

/-- The effect of one operation on the dedup set: both scan entry points
run `checkRecentTransactions`; the health endpoint only reads
`processedTransactions.size`; the cron job calls
`processedTransactions.clear()`. -/
def sysStep (cfg : Config) (a : SysAction) (st : List String) : List String :=
  match a with
  | .timerTick resp => (checkRecentTransactions cfg resp st).2
  | .apiCheck resp => (checkRecentTransactions cfg resp st).2
  | .apiHealth => st
  | .cronMidnight => []

/-! ## The unnamed Express variant (`src/unnamed/part_000`) -/

/-- An NFT record as stored under `users/<uid>/nfts/<key>` in the
database read by `GET /api/user/:userId/nfts`: it may or may not carry a
`staked` child; the remaining children are opaque. -/
structure InvNFT where
  staked : Option Bool
  payload : String
deriving DecidableEq, Repr

/-- One element of the array the endpoint responds with: the spread of
the stored record with `staked` overridden by `nft.staked || false`. -/
structure InvNFTOut where
  staked : Bool
  payload : String
deriving DecidableEq, Repr

/-- `GET /api/user/:userId/nfts` (`part_000` lines 65–84): read the
`users/<userId>/nfts` subtree (`snapshot.val() || {}`), turn the object
into an array, and default each record's `staked` to `false`; a database
error is caught and answered with a 500. -/
def getUserNfts (err : Bool) (subtree : Option (List (String × InvNFT))) :
    Except String (List InvNFTOut) :=
  if err then Except.error "db"
  else
    Except.ok ((subtree.getD []).map
      (fun p => { staked := p.2.staked.getD false, payload := p.2.payload }))

/-- The JSON body of `POST /api/user/:userId/nfts/add`: the four fields
the handler destructures, each possibly absent. -/
structure AddNftBody where
  name : Option String
  collection : Option String
  image : Option String
  priceTON : Option Nat
deriving DecidableEq, Repr

/-- The record the admin-add endpoint stores. -/
structure AdminNFT where
  id : String
  name : String
  collection : String
  image : String
  priceTON : Nat
  staked : Bool
  receivedAt : Nat
deriving DecidableEq, Repr

/-- Observable effects of the Express variant. -/
inductive ApiEvent where
  | nftWrite (userId : String) (key : String) (rec : AdminNFT)
  | logError (msg : String)
deriving DecidableEq, Repr

/-- Responses of the admin-add endpoint. -/
inductive AddNftResult where
  | forbidden
  | ok (nftId : String)
  | serverError (msg : String)
deriving DecidableEq, Repr

/-- JavaScript `x || d` for an optional string field: an absent field or
the empty string is falsy and yields the default. -/
def orDefaultStr (o : Option String) (d : String) : String :=
  match o with
  | none => d
  | some s => if s = "" then d else s

/-- The record written by the admin-add handler: `{id: nftId, name: name
|| 'Unknown NFT', collection: collection || 'Unknown', image: image ||
'🎨', priceTON: priceTON || 0, staked: false, receivedAt: Date.now()}`. -/
def mkAdminNFT (nftId : String) (now : Nat) (body : AddNftBody) : AdminNFT :=
  { id := nftId, name := orDefaultStr body.name "Unknown NFT",
    collection := orDefaultStr body.collection "Unknown",
    image := orDefaultStr body.image "🎨",
    priceTON := body.priceTON.getD 0, staked := false, receivedAt := now }

/-- `POST /api/user/:userId/nfts/add` (`part_000` lines 87–117): reject
with 403 `{error: 'Forbidden'}` before touching the database unless the
`x-admin-key` header strictly equals `process.env.ADMIN_KEY`; otherwise
store one record under `users/<userId>/nfts/<nftId>` and answer
`{success: true, nftId}`; a database error is caught and answered 500. -/
def addNftHandler (adminKeyEnv : Option String) (headerKey : Option String)
    (dbFail : Bool) (nftId : String) (now : Nat) (userId : String)
    (body : AddNftBody) : List ApiEvent × AddNftResult :=
  if headerKey ≠ adminKeyEnv then ([], AddNftResult.forbidden)
  else if dbFail then
    ([ApiEvent.logError "Ошибка добавления NFT"], AddNftResult.serverError "db")
  else
    ([ApiEvent.nftWrite userId nftId (mkAdminNFT nftId now body)],
      AddNftResult.ok nftId)

/-- One Tonnel listing as consumed by `GET /api/collections/prices`:
its `model` and `price`. -/
structure Gift where
  model : String
  price : Nat
deriving DecidableEq, Repr

/-- `floorPrices[k] = v` on a JavaScript object modelled extensionally
as a partial map from model names to prices. -/
def updateFloor (f : String → Option Nat) (k : String) (v : Nat) :
    String → Option Nat :=
  fun s => if s = k then some v else f s

/-- One iteration of the floor-price accumulation:
`if (!floorPrices[gift.model] || gift.price < floorPrices[gift.model])
floorPrices[gift.model] = gift.price`.  A stored floor of `0` is falsy
and is overwritten unconditionally. -/
def floorStep (f : String → Option Nat) (g : Gift) : String → Option Nat :=
  match f g.model with
  | none => updateFloor f g.model g.price
  | some p =>
    if p = 0 ∨ g.price < p then updateFloor f g.model g.price else f

/-- The per-collection floor-price object: fold `floorStep` over the
listings in response order, starting from the empty object. -/
def floorPrices (gifts : List Gift) : String → Option Nat :=
  gifts.foldl floorStep (fun _ => none)

/-- The five hard-coded collection names of `GET /api/collections/prices`. -/
def collectionsList : List String :=
  ["toy bear", "durov cap", "heart locket", "plush pepe", "swiss watch"]

/-- The success payload of `GET /api/collections/prices`: one entry per
hard-coded collection whose Tonnel response had truthy `data`
(`fetch c = none` models falsy data: the collection is skipped), mapping
the collection to its floor-price object. -/
def collectionsPayload (fetch : String → Option (List Gift)) :
    List (String × (String → Option Nat)) :=
  collectionsList.filterMap
    (fun c => (fetch c).map (fun gifts => (c, floorPrices gifts)))

/-- `GET /api/collections/prices` (`part_000` lines 169–197): any Tonnel
request that throws aborts the loop into the catch and a 500; otherwise
the payload above is returned. -/
def collectionsPrices (err : Bool) (fetch : String → Option (List Gift)) :
    Except String (List (String × (String → Option Nat))) :=
  if err then Except.error "tonnel"
  else Except.ok (collectionsPayload fetch)

/-- The prices of the listings of one model, in response order — the
reference value for the floor computation. -/
def modelPrices (gifts : List Gift) (m : String) : List Nat :=
  (gifts.filter (fun g => g.model = m)).map Gift.price

/-- The minimum of a list of prices, `none` on the empty list. -/
def minimumOfPrices : List Nat → Option Nat
  | [] => none
  | x :: xs =>
    some (match minimumOfPrices xs with
          | none => x
          | some y => min x y)

/-! ## Helper lemmas on the dedup set and the scan loop -/

lemma mem_addTx_self (s : List String) (h : String) : h ∈ addTx s h := by
  unfold addTx
  split
  · assumption
  · exact List.mem_append_right _ (List.mem_singleton.mpr rfl)

lemma mem_addTx_of_mem {x : String} {s : List String} (hx : x ∈ s) (h : String) :
    x ∈ addTx s h := by
  unfold addTx
  split
  · exact hx
  · exact List.mem_append_left _ hx

lemma processMsg_events_mono {e : Event} {acc : List Event × List String}
    (cfg : Config) (hash : String) (msg : OutMsg) (he : e ∈ acc.1) :
    e ∈ (processMsg cfg hash acc msg).1 := by
  unfold processMsg
  split
  · exact List.mem_append_left _ he
  · exact he

lemma processMsg_st_mono {x : String} {acc : List Event × List String}
    (cfg : Config) (hash : String) (msg : OutMsg) (hx : x ∈ acc.2) :
    x ∈ (processMsg cfg hash acc msg).2 := by
  unfold processMsg
  split
  · exact mem_addTx_of_mem hx _
  · exact hx

lemma foldl_processMsg_events_mono {e : Event} (cfg : Config) (hash : String) :
    ∀ (msgs : List OutMsg) (acc : List Event × List String), e ∈ acc.1 →
      e ∈ (msgs.foldl (processMsg cfg hash) acc).1 := by
  intro msgs
  induction msgs with
  | nil => intro acc he; simpa using he
  | cons m ms ih =>
    intro acc he
    exact ih _ (processMsg_events_mono cfg hash m he)

lemma foldl_processMsg_st_mono {x : String} (cfg : Config) (hash : String) :
    ∀ (msgs : List OutMsg) (acc : List Event × List String), x ∈ acc.2 →
      x ∈ (msgs.foldl (processMsg cfg hash) acc).2 := by
  intro msgs
  induction msgs with
  | nil => intro acc hx; simpa using hx
  | cons m ms ih =>
    intro acc hx
    exact ih _ (processMsg_st_mono cfg hash m hx)

lemma foldl_processMsg_event_of_match {cfg : Config} {hash : String}
    {msg : OutMsg} {e : Event}
    (hdest : msg.destination = cfg.receiver) (hop : bodyHasOpcode msg = true)
    (he : e ∈ msgEvents cfg msg) :
    ∀ (msgs : List OutMsg), msg ∈ msgs →
      ∀ acc : List Event × List String,
        e ∈ (msgs.foldl (processMsg cfg hash) acc).1 := by
  intro msgs
  induction msgs with
  | nil => intro hm; cases hm
  | cons m ms ih =>
    intro hm acc
    rcases List.mem_cons.mp hm with heq | htail
    · subst heq
      rw [List.foldl_cons]
      apply foldl_processMsg_events_mono
      unfold processMsg
      rw [if_pos ⟨hdest, hop⟩]
      exact List.mem_append_right _ he
    · rw [List.foldl_cons]
      exact ih htail _

lemma foldl_processMsg_hash_mem {cfg : Config} {hash : String} {msg : OutMsg}
    (hdest : msg.destination = cfg.receiver) (hop : bodyHasOpcode msg = true) :
    ∀ (msgs : List OutMsg), msg ∈ msgs →
      ∀ acc : List Event × List String,
        hash ∈ (msgs.foldl (processMsg cfg hash) acc).2 := by
  intro msgs
  induction msgs with
  | nil => intro hm; cases hm
  | cons m ms ih =>
    intro hm acc
    rcases List.mem_cons.mp hm with heq | htail
    · subst heq
      rw [List.foldl_cons]
      apply foldl_processMsg_st_mono
      unfold processMsg
      rw [if_pos ⟨hdest, hop⟩]
      exact mem_addTx_self _ _
    · rw [List.foldl_cons]
      exact ih htail _

lemma outMsgs_isEmpty_false {tx : Transaction} {msg : OutMsg}
    (hm : msg ∈ tx.out_msgs) : tx.out_msgs.isEmpty = false := by
  cases h : tx.out_msgs with
  | nil => rw [h] at hm; cases hm
  | cons a l => rfl

lemma checkTransaction_of_processed {cfg : Config} {st : List String}
    {tx : Transaction} (h : tx.hash ∈ st) :
    checkTransaction cfg st tx = ([], st) := by
  unfold checkTransaction
  rw [if_pos h]

lemma checkTransaction_st_mono {x : String} (cfg : Config) (st : List String)
    (tx : Transaction) (hx : x ∈ st) : x ∈ (checkTransaction cfg st tx).2 := by
  unfold checkTransaction
  split
  · exact hx
  · split
    · exact hx
    · exact foldl_processMsg_st_mono cfg tx.hash tx.out_msgs ([], st) hx

lemma checkTransaction_hash_mem {cfg : Config} {st : List String}
    {tx : Transaction} {msg : OutMsg} (hm : msg ∈ tx.out_msgs)
    (hdest : msg.destination = cfg.receiver) (hop : bodyHasOpcode msg = true) :
    tx.hash ∈ (checkTransaction cfg st tx).2 := by
  unfold checkTransaction
  by_cases hp : tx.hash ∈ st
  · rw [if_pos hp]; exact hp
  · rw [if_neg hp]
    rw [if_neg (by rw [outMsgs_isEmpty_false hm]; exact Bool.false_ne_true)]
    exact foldl_processMsg_hash_mem hdest hop tx.out_msgs hm ([], st)

lemma checkTransaction_event_of_match {cfg : Config} {st : List String}
    {tx : Transaction} {msg : OutMsg} {e : Event}
    (hfresh : tx.hash ∉ st) (hm : msg ∈ tx.out_msgs)
    (hdest : msg.destination = cfg.receiver) (hop : bodyHasOpcode msg = true)
    (he : e ∈ msgEvents cfg msg) :
    e ∈ (checkTransaction cfg st tx).1 := by
  unfold checkTransaction
  rw [if_neg hfresh]
  rw [if_neg (by rw [outMsgs_isEmpty_false hm]; exact Bool.false_ne_true)]
  exact foldl_processMsg_event_of_match hdest hop he tx.out_msgs hm ([], st)

lemma checkRecentTransactions_st_mono {x : String} (cfg : Config)
    (resp : Option (List Transaction)) (st : List String) (hx : x ∈ st) :
    x ∈ (checkRecentTransactions cfg resp st).2 := by
  cases resp with
  | none => simpa [checkRecentTransactions] using hx
  | some txs =>
    unfold checkRecentTransactions
    suffices h : ∀ acc : List Event × List String, x ∈ acc.2 →
        x ∈ (txs.foldl (fun acc tx =>
          let r := checkTransaction cfg acc.2 tx
          (acc.1 ++ r.1, r.2)) acc).2 by
      exact h ([], st) hx
    induction txs with
    | nil => intro acc h; simpa using h
    | cons t ts ih =>
      intro acc h
      exact ih _ (checkTransaction_st_mono cfg acc.2 t h)

/-- C2: Deduplication of `checkTransaction`.  A transaction whose hash is
already in the processed set produces no events (no lookup, no write, no
notification) and leaves the set unchanged; after a transaction carrying
a message with the matching destination and opcode is processed, its hash
is in the set, so re-processing it is a no-op. -/
theorem checkTransaction_dedup (cfg : Config) (st : List String)
    (tx : Transaction) :
    (tx.hash ∈ st → checkTransaction cfg st tx = ([], st)) ∧
    ((∃ msg ∈ tx.out_msgs,
        msg.destination = cfg.receiver ∧ bodyHasOpcode msg = true) →
      tx.hash ∈ (checkTransaction cfg st tx).2 ∧
      checkTransaction cfg (checkTransaction cfg st tx).2 tx =
        ([], (checkTransaction cfg st tx).2)) := by
  constructor
  · exact checkTransaction_of_processed
  · rintro ⟨msg, hm, hdest, hop⟩
    have h1 : tx.hash ∈ (checkTransaction cfg st tx).2 :=
      checkTransaction_hash_mem hm hdest hop
    exact ⟨h1, checkTransaction_of_processed h1⟩

/-! ## Concrete instances used by witnesses and counterexamples -/

/-- A registered user as returned by `findUserByWallet`. -/
def exUser : FoundUser :=
  { id := "u1", idChild := none, wallet := some { address := "w1" },
    payload := "" }

/-- A concrete NFT info object. -/
def exInfo : NFTInfo :=
  { id := "a1", name := "Bear", collection := "toy bear", image := "",
    description := "", owner := "o1", priceTON := 3 }

/-- An outbound message of a matching inbound transfer: destination `R`,
body carrying the transfer opcode, sender `w1`. -/
def exMsg : OutMsg :=
  { source := "w1", destination := "R", body := some "5fcc3d14" }

/-- A transaction with hash `h1` carrying the matching message. -/
def exTx : Transaction := { hash := "h1", out_msgs := [exMsg] }

/-- A configuration in which `w1` belongs to the registered user and the
NFT info fetch succeeds. -/
def exCfg : Config :=
  { receiver := "R",
    findUser := fun s => if s = "w1" then some exUser else none,
    getInfo := fun _ => some exInfo,
    dbFail := false, nftId := "n1", now := 5,
    token := some "tok", notifyFail := false }

/-- The same configuration except that the TON Center NFT-data query
comes back without a result, so `getNFTInfo` returns `null`. -/
def exCfgNoInfo : Config :=
  { exCfg with getInfo := fun _ => none }

/-- Witness for the dedup theorem: on the concrete transaction `h1`, a
set already holding `h1` makes the call a no-op, and a fresh run puts
`h1` into the set. -/
theorem checkTransaction_dedup_witness :
    checkTransaction exCfg ["h1"] exTx = ([], ["h1"]) ∧
    "h1" ∈ (checkTransaction exCfg [] exTx).2 := by
  refine ⟨(checkTransaction_dedup exCfg ["h1"] exTx).1 (by decide), ?_⟩
  exact ((checkTransaction_dedup exCfg [] exTx).2
    ⟨exMsg, by decide, by decide, by decide⟩).1

lemma credit_events_mem {cfg : Config} {st : List String} {tx : Transaction}
    {msg : OutMsg} {u : FoundUser} {info : NFTInfo}
    (hfresh : tx.hash ∉ st) (hm : msg ∈ tx.out_msgs)
    (hdest : msg.destination = cfg.receiver) (hop : bodyHasOpcode msg = true)
    (hu : cfg.findUser msg.source = some u)
    (hi : cfg.getInfo msg.source = some info) (hdb : cfg.dbFail = false) :
    Event.dbWrite u.id cfg.nftId (mkStoredNFT cfg.nftId cfg.now info) ∈
      (checkTransaction cfg st tx).1 ∧
    Event.notify u.id info ∈ (checkTransaction cfg st tx).1 := by
  have hw : Event.dbWrite u.id cfg.nftId (mkStoredNFT cfg.nftId cfg.now info) ∈
      msgEvents cfg msg := by
    simp [msgEvents, hu, hi, hdb, addNFTToInventory]
  have hn : Event.notify u.id info ∈ msgEvents cfg msg := by
    simp [msgEvents, hu, hi, hdb, addNFTToInventory]
  exact ⟨checkTransaction_event_of_match hfresh hm hdest hop hw,
    checkTransaction_event_of_match hfresh hm hdest hop hn⟩

/-- C1 (amended): a transaction of the scan whose hash is not yet in the
processed set, carrying a message to the receiver address with the
transfer opcode, whose sender is a registered user, and for which the
NFT-info fetch returns data, is credited: with a non-erroring database
the scan writes the stored NFT record under that user and invokes the
Telegram notification for that user. -/
theorem scan_credits_registered_sender (cfg : Config) (st : List String)
    (tx : Transaction) (msg : OutMsg) (u : FoundUser) (info : NFTInfo)
    (hfresh : tx.hash ∉ st) (hm : msg ∈ tx.out_msgs)
    (hdest : msg.destination = cfg.receiver) (hop : bodyHasOpcode msg = true)
    (hu : cfg.findUser msg.source = some u)
    (hi : cfg.getInfo msg.source = some info) (hdb : cfg.dbFail = false) :
    Event.dbWrite u.id cfg.nftId (mkStoredNFT cfg.nftId cfg.now info) ∈
      (checkTransaction cfg st tx).1 ∧
    Event.notify u.id info ∈ (checkTransaction cfg st tx).1 :=
  credit_events_mem hfresh hm hdest hop hu hi hdb

/-- C1 (counterexample): the claim as stated fails on the code in two
ways.  A matching transfer from the registered sender `w1` with a fresh
hash produces neither an inventory write nor a notification when the NFT
info fetch returns `null` (the `if (nftInfo)` guard); and a matching
transfer whose hash is already in the processed set produces no events at
all even though the info fetch would succeed. -/
theorem scan_credits_counterexample :
    (checkTransaction exCfgNoInfo [] exTx).1.any Event.isDbWrite = false ∧
    (checkTransaction exCfgNoInfo [] exTx).1.any Event.isNotify = false ∧
    (checkTransaction exCfg ["h1"] exTx).1 = [] := by decide

/-- Witness for the amended crediting theorem at the concrete transfer. -/
theorem scan_credits_registered_sender_witness :
    Event.dbWrite "u1" "n1" (mkStoredNFT "n1" 5 exInfo) ∈
      (checkTransaction exCfg [] exTx).1 ∧
    Event.notify "u1" exInfo ∈ (checkTransaction exCfg [] exTx).1 :=
  scan_credits_registered_sender exCfg [] exTx exMsg exUser exInfo
    (by decide) (by decide) (by decide) (by decide) (by decide) (by decide)
    (by decide)

/-- C3: only the cron job clears.  The scheduled midnight task empties
the processed-transactions set, every other operation of the program
preserves every element already in the set, and any sequence of
operations containing no cron clear only grows the set. -/
theorem cron_clear_only (cfg : Config) (st : List String) :
    (sysStep cfg SysAction.cronMidnight st = [] ∧
      (sysStep cfg SysAction.cronMidnight st).length = 0) ∧
    (∀ a : SysAction, a ≠ SysAction.cronMidnight →
      ∀ x ∈ st, x ∈ sysStep cfg a st) ∧
    (∀ acts : List SysAction,
      (∀ a ∈ acts, a ≠ SysAction.cronMidnight) →
      ∀ x ∈ st, x ∈ acts.foldl (fun s a => sysStep cfg a s) st) := by
  refine ⟨⟨rfl, rfl⟩, ?_, ?_⟩
  · intro a ha x hx
    cases a with
    | timerTick resp => exact checkRecentTransactions_st_mono cfg resp st hx
    | apiCheck resp => exact checkRecentTransactions_st_mono cfg resp st hx
    | apiHealth => exact hx
    | cronMidnight => exact absurd rfl ha
  · intro acts
    induction acts generalizing st with
    | nil => intro _ x hx; simpa using hx
    | cons a as ih =>
      intro hno x hx
      rw [List.foldl_cons]
      refine ih (sysStep cfg a st) (fun b hb => hno b (List.mem_cons_of_mem a hb)) x ?_
      have ha : a ≠ SysAction.cronMidnight := hno a (List.mem_cons_self a as)
      cases a with
      | timerTick resp => exact checkRecentTransactions_st_mono cfg resp st hx
      | apiCheck resp => exact checkRecentTransactions_st_mono cfg resp st hx
      | apiHealth => exact hx
      | cronMidnight => exact absurd rfl ha

/-- Witness for the cron theorem: the midnight task empties a concrete
two-element set, and a health check followed by a scan of no new data
keeps its elements. -/
theorem cron_clear_only_witness :
    sysStep exCfg SysAction.cronMidnight ["h1", "h2"] = [] ∧
    "h1" ∈ List.foldl (fun s a => sysStep exCfg a s) ["h1", "h2"]
      [SysAction.apiHealth, SysAction.timerTick none] := by
  refine ⟨(cron_clear_only exCfg ["h1", "h2"]).1.1, ?_⟩
  exact (cron_clear_only exCfg ["h1", "h2"]).2.2
    [SysAction.apiHealth, SysAction.timerTick none]
    (by decide) "h1" (by decide)

/-- One step of the fold `checkRecentTransactions` runs over the
returned transactions. -/
def scanStep (cfg : Config) (acc : List Event × List String)
    (tx : Transaction) : List Event × List String :=
  let r := checkTransaction cfg acc.2 tx
  (acc.1 ++ r.1, r.2)

lemma checkRecentTransactions_eq_foldl (cfg : Config)
    (txs : List Transaction) (st : List String) :
    checkRecentTransactions cfg (some txs) st =
      txs.foldl (scanStep cfg) ([], st) := by
  unfold checkRecentTransactions scanStep
  rfl

lemma scanFold_shift (cfg : Config) (txs : List Transaction) :
    ∀ (evs : List Event) (st : List String),
      txs.foldl (scanStep cfg) (evs, st) =
        (evs ++ (txs.foldl (scanStep cfg) ([], st)).1,
          (txs.foldl (scanStep cfg) ([], st)).2) := by
  induction txs with
  | nil => intro evs st; simp
  | cons t ts ih =>
    intro evs st
    rw [List.foldl_cons, List.foldl_cons]
    have h1 : scanStep cfg (evs, st) t =
        (evs ++ (checkTransaction cfg st t).1, (checkTransaction cfg st t).2) := rfl
    have h2 : scanStep cfg ([], st) t =
        ([] ++ (checkTransaction cfg st t).1, (checkTransaction cfg st t).2) := rfl
    rw [h1, h2, List.nil_append]
    rw [ih (evs ++ (checkTransaction cfg st t).1) (checkTransaction cfg st t).2]
    rw [ih (checkTransaction cfg st t).1 (checkTransaction cfg st t).2]
    simp [List.append_assoc]

/-- C4: the polling loop.  The `setInterval` delay defaults to 60000 ms
when `CHECK_INTERVAL` is unset; the TON Center request asks for the last
20 transactions of the receiver address; a scan with no result does
nothing; and a scan over returned transactions runs `checkTransaction`
on each in response order, threading the dedup set from one to the
next. -/
theorem polling_scan_shape (r : String) (cfg : Config) (st : List String)
    (tx : Transaction) (txs : List Transaction) :
    checkIntervalMs none = 60000 ∧
    (recentTxRequest r).address = r ∧
    (recentTxRequest r).limit = 20 ∧
    checkRecentTransactions cfg none st = ([], st) ∧
    checkRecentTransactions cfg (some []) st = ([], st) ∧
    checkRecentTransactions cfg (some (tx :: txs)) st =
      ((checkTransaction cfg st tx).1 ++
        (checkRecentTransactions cfg (some txs)
          (checkTransaction cfg st tx).2).1,
        (checkRecentTransactions cfg (some txs)
          (checkTransaction cfg st tx).2).2) := by
  refine ⟨rfl, rfl, rfl, rfl, rfl, ?_⟩
  rw [checkRecentTransactions_eq_foldl, checkRecentTransactions_eq_foldl,
    List.foldl_cons]
  have h2 : scanStep cfg ([], st) tx =
      ([] ++ (checkTransaction cfg st tx).1, (checkTransaction cfg st tx).2) := rfl
  rw [h2, List.nil_append]
  exact scanFold_shift cfg txs (checkTransaction cfg st tx).1
    (checkTransaction cfg st tx).2

lemma head?_filter_eq_find? {α : Type} (p : α → Bool) :
    ∀ l : List α, (l.filter p).head? = l.find? p := by
  intro l
  induction l with
  | nil => rfl
  | cons a as ih =>
    by_cases h : p a = true
    · rw [List.filter_cons_of_pos h, List.find?_cons_of_pos as h]
      rfl
    · rw [List.filter_cons_of_neg h, List.find?_cons_of_neg as h]
      exact ih

/-- A user record that carries its own `id` child. -/
def exWalletUser : UserRec :=
  { wallet := some { address := "wX" }, idChild := some "u42", payload := "p" }

/-- C5 (counterexample): `findUserByWallet` builds
`{ id: userId, ...users[userId] }`, so a stored record with its own `id`
child overrides the preset database key.  On a database whose single
matching record sits under key `k1` but carries `id: 'u42'`, the
returned `id` is `u42`, not the database key `k1`. -/
theorem findUserByWallet_counterexample :
    (findUserByWallet false [("k1", exWalletUser)] "wX").map FoundUser.id =
      some "u42" ∧
    ("u42" : String) ≠ "k1" := by decide

/-- C5 (amended): `findUserByWallet` returns the first record of the
`users` tree whose `wallet/address` child equals the queried address,
spread over an `id` field preset to its database key — so `id` is the
key unless the stored record itself carries an `id` child, which takes
precedence; it returns `null` when no record matches or the query
failed. -/
theorem findUserByWallet_first_match (err : Bool)
    (db : List (String × UserRec)) (addr : String) :
    findUserByWallet err db addr =
      if err then none
      else (db.find? (fun p => walletMatches addr p.2)).map
        (fun p => mkFoundUser p.1 p.2) := by
  unfold findUserByWallet
  by_cases herr : err = true
  · rw [if_pos herr, if_pos herr]
  · have herr' : err = false := Bool.eq_false_iff.mpr herr
    rw [herr']
    simp only [if_false, Bool.false_eq_true]
    rw [← head?_filter_eq_find?]
    cases h : db.filter (fun p => walletMatches addr p.2) with
    | nil => rfl
    | cons q qs =>
      cases q with
      | mk k u => rfl

/-- `true` when `response.data && response.data.price` is falsy for the
Getgems response: data absent, no `price` field, or price `0`. -/
def gemsPriceFalsy : Option (Option Nat) → Bool
  | some (some p) => p == 0
  | _ => true

/-- C6 (counterexample): a Getgems response that does contain a price —
the price `0` — fails the truthiness check `response.data.price`, so the
code falls through to Tonnel and returns the first Tonnel listing's
price `7` instead of the Getgems price. -/
theorem getNFTPrice_counterexample :
    getNFTPrice false (some (some 0)) false (some [7]) = 7 ∧
    (7 : Nat) ≠ 0 := by decide

/-- C6 (amended): `getNFTPrice` returns the Getgems price when that
response contains a nonzero price (a price of `0` is falsy and treated
as absent); otherwise it queries Tonnel and returns the first result's
price when one exists, and `0` otherwise; and on a request error of
either API it returns `0` rather than throwing. -/
theorem getNFTPrice_fallback (gems : Option (Option Nat)) (tonnelErr : Bool)
    (tonnel : Option (List Nat)) (p : Nat) (prices : List Nat) :
    (getNFTPrice true gems tonnelErr tonnel = 0) ∧
    (p ≠ 0 → getNFTPrice false (some (some p)) tonnelErr tonnel = p) ∧
    (gemsPriceFalsy gems = true →
      getNFTPrice false gems true tonnel = 0 ∧
      getNFTPrice false gems false (some (p :: prices)) = p ∧
      getNFTPrice false gems false (some []) = 0 ∧
      getNFTPrice false gems false none = 0) := by
  refine ⟨rfl, ?_, ?_⟩
  · intro hp
    simp [getNFTPrice, hp]
  · intro hg
    rcases gems with _ | q
    · exact ⟨rfl, rfl, rfl, rfl⟩
    · rcases q with _ | n
      · exact ⟨rfl, rfl, rfl, rfl⟩
      · have hn : n = 0 := by simpa [gemsPriceFalsy] using hg
        subst hn
        exact ⟨rfl, rfl, rfl, rfl⟩

/-- Witness for the price-fallback theorem: a nonzero Getgems price of
`9` is returned directly, and with no Getgems data the first Tonnel
price `4` is returned. -/
theorem getNFTPrice_fallback_witness :
    getNFTPrice false (some (some 9)) false none = 9 ∧
    getNFTPrice false none false (some [4, 6]) = 4 := by
  refine ⟨(getNFTPrice_fallback (some (some 9)) false none 9 []).2.1
    (by decide), ?_⟩
  exact ((getNFTPrice_fallback none false (some [4, 6]) 4 [6]).2.2
    (by decide)).2.1

/-- C7: the notification is best-effort and ordered after the write.
`sendNotification` always resolves normally (the `catch` swallows any
send error); with no configured bot token it performs no HTTP call at
all; and for a credited transfer the inventory write still happens and
sits in the trace before the notification, whatever the outcome of the
Telegram send (`cfg.notifyFail` is unconstrained). -/
theorem notification_best_effort (token : Option String) (fail : Bool)
    (uid : String) (nInfo : NFTInfo) (cfg : Config) (st : List String)
    (tx : Transaction) (msg : OutMsg) (u : FoundUser) (info : NFTInfo) :
    ((sendNotification token fail uid nInfo).2 = Except.ok ()) ∧
    ((sendNotification none fail uid nInfo).1 = []) ∧
    (tx.hash ∉ st → msg ∈ tx.out_msgs → msg.destination = cfg.receiver →
      bodyHasOpcode msg = true → cfg.findUser msg.source = some u →
      cfg.getInfo msg.source = some info → cfg.dbFail = false →
      Event.dbWrite u.id cfg.nftId (mkStoredNFT cfg.nftId cfg.now info) ∈
        (checkTransaction cfg st tx).1) ∧
    (cfg.findUser msg.source = some u → cfg.getInfo msg.source = some info →
      cfg.dbFail = false →
      msgEvents cfg msg =
        [Event.dbLookup msg.source, Event.fetchInfo msg.source,
          Event.dbWrite u.id cfg.nftId (mkStoredNFT cfg.nftId cfg.now info),
          Event.notify u.id info] ++
          (sendNotification cfg.token cfg.notifyFail u.id info).1) := by
  refine ⟨?_, ?_, ?_, ?_⟩
  · rcases token with _ | t
    · rfl
    · by_cases ht : t = ""
      · subst ht
        rfl
      · simp [sendNotification, sendNotificationAttempt, ht]
        rcases fail with _ | _ <;> simp
  · rfl
  · intro hfresh hm hdest hop hu hi hdb
    exact (credit_events_mem hfresh hm hdest hop hu hi hdb).1
  · intro hu hi hdb
    simp [msgEvents, hu, hi, hdb, addNFTToInventory]

/-- A configuration in which the Telegram send fails. -/
def exCfgNotifyFail : Config := { exCfg with notifyFail := true }

/-- Witness for the best-effort theorem: a failing send still resolves
normally, an unset token sends nothing, and on the concrete transfer the
inventory write is in the trace even though the notification fails. -/
theorem notification_best_effort_witness :
    (sendNotification (some "tok") true "u1" exInfo).2 = Except.ok () ∧
    (sendNotification none true "u1" exInfo).1 = [] ∧
    Event.dbWrite "u1" "n1" (mkStoredNFT "n1" 5 exInfo) ∈
      (checkTransaction exCfgNotifyFail [] exTx).1 := by
  have h := notification_best_effort (some "tok") true "u1" exInfo
    exCfgNotifyFail [] exTx exMsg exUser exInfo
  exact ⟨h.1, h.2.1, h.2.2.1 (by decide) (by decide) (by decide) (by decide)
    (by decide) (by decide) (by decide)⟩

/-- C8: `GET /api/user/:userId/nfts` on success responds with an array:
the empty array when the user has no `nfts` subtree, and otherwise one
element per stored record, in order, with `staked` defaulting to `false`
when absent from the stored record. -/
theorem get_user_nfts_shape (err : Bool)
    (subtree : Option (List (String × InvNFT))) (out : List InvNFTOut) :
    (getUserNfts false none = Except.ok []) ∧
    (getUserNfts err subtree = Except.ok out →
      out.length = (subtree.getD []).length ∧
      ∀ i : Nat, out[i]? = ((subtree.getD [])[i]?).map
        (fun p => { staked := p.2.staked.getD false,
                    payload := p.2.payload })) := by
  refine ⟨rfl, ?_⟩
  intro h
  have herr : err = false := by
    rcases err with _ | _
    · rfl
    · simp [getUserNfts] at h
  subst herr
  have hout : out = (subtree.getD []).map
      (fun p => ({ staked := p.2.staked.getD false,
                   payload := p.2.payload } : InvNFTOut)) := by
    have h' := h
    simp only [getUserNfts, Bool.false_eq_true, if_false] at h'
    exact (Except.ok.inj h').symm
  subst hout
  constructor
  · exact List.length_map _ _
  · intro i
    exact List.getElem?_map _ _ i

/-- Witness for the inventory endpoint theorem at a concrete two-record
subtree, one record without a `staked` child and one staked. -/
theorem get_user_nfts_shape_witness :
    getUserNfts false none = Except.ok [] ∧
    ([({ staked := false, payload := "x" } : InvNFTOut),
      { staked := true, payload := "y" }].length =
      ((some [("k1", ({ staked := none, payload := "x" } : InvNFT)),
        ("k2", { staked := some true, payload := "y" })] :
          Option (List (String × InvNFT))).getD []).length) ∧
    ([({ staked := false, payload := "x" } : InvNFTOut),
      { staked := true, payload := "y" }])[0]? =
      (((some [("k1", ({ staked := none, payload := "x" } : InvNFT)),
        ("k2", { staked := some true, payload := "y" })] :
          Option (List (String × InvNFT))).getD [])[0]?).map
        (fun p => { staked := p.2.staked.getD false,
                    payload := p.2.payload }) := by
  have h := get_user_nfts_shape false
    (some [("k1", ({ staked := none, payload := "x" } : InvNFT)),
      ("k2", { staked := some true, payload := "y" })])
    [({ staked := false, payload := "x" } : InvNFTOut),
      { staked := true, payload := "y" }]
  have h2 := h.2 (by rfl)
  exact ⟨h.1, h2.1, h2.2 0⟩

/-- C9: the admin-add endpoint.  A request whose `x-admin-key` header
differs from the configured `ADMIN_KEY` is answered 403 `Forbidden` with
no database write; a matching key (with a non-erroring database) writes
exactly one record — staked `false`, `receivedAt` the current time, `id`
equal to the database key it is stored under — and answers
`{success: true, nftId}`. -/
theorem admin_add_nft (adminKeyEnv headerKey : Option String) (dbFail : Bool)
    (nftId : String) (now : Nat) (userId : String) (body : AddNftBody) :
    (headerKey ≠ adminKeyEnv →
      addNftHandler adminKeyEnv headerKey dbFail nftId now userId body =
        ([], AddNftResult.forbidden)) ∧
    (headerKey = adminKeyEnv → dbFail = false →
      addNftHandler adminKeyEnv headerKey dbFail nftId now userId body =
        ([ApiEvent.nftWrite userId nftId (mkAdminNFT nftId now body)],
          AddNftResult.ok nftId) ∧
      (mkAdminNFT nftId now body).staked = false ∧
      (mkAdminNFT nftId now body).receivedAt = now ∧
      (mkAdminNFT nftId now body).id = nftId) := by
  constructor
  · intro hne
    simp [addNftHandler, hne]
  · intro heq hdb
    subst heq hdb
    refine ⟨?_, rfl, rfl, rfl⟩
    simp [addNftHandler]

/-- Witness for the admin-add theorem: a wrong key against a configured
`ADMIN_KEY` is rejected with no write, and the right key stores the
defaulted record and succeeds. -/
theorem admin_add_nft_witness :
    addNftHandler (some "k") (some "bad") false "n7" 11 "u9"
      { name := none, collection := none, image := none, priceTON := none } =
      ([], AddNftResult.forbidden) ∧
    addNftHandler (some "k") (some "k") false "n7" 11 "u9"
      { name := some "Cap", collection := none, image := none,
        priceTON := some 2 } =
      ([ApiEvent.nftWrite "u9" "n7" (mkAdminNFT "n7" 11
        { name := some "Cap", collection := none, image := none,
          priceTON := some 2 })], AddNftResult.ok "n7") := by
  refine ⟨(admin_add_nft (some "k") (some "bad") false "n7" 11 "u9"
    { name := none, collection := none, image := none, priceTON := none }).1
    (by decide), ?_⟩
  exact ((admin_add_nft (some "k") (some "k") false "n7" 11 "u9"
    { name := some "Cap", collection := none, image := none,
      priceTON := some 2 }).2 (by decide) (by decide)).1

/-! ## Floor-price lemmas -/

/-- Minimum of two optional prices, `none` acting as absence. -/
def optMin : Option Nat → Option Nat → Option Nat
  | none, b => b
  | some x, none => some x
  | some x, some y => some (min x y)

lemma optMin_none_right (a : Option Nat) : optMin a none = a := by
  cases a <;> rfl

lemma optMin_lt_absorb {p q : Nat} (h : q < p) (r : Option Nat) :
    optMin (some p) (optMin (some q) r) = optMin (some q) r := by
  cases r with
  | none =>
    simp only [optMin]
    exact congrArg some (by omega)
  | some y =>
    simp only [optMin]
    exact congrArg some (by omega)

lemma optMin_ge_absorb {p q : Nat} (h : p ≤ q) (r : Option Nat) :
    optMin (some p) (optMin (some q) r) = optMin (some p) r := by
  cases r with
  | none =>
    simp only [optMin]
    exact congrArg some (by omega)
  | some y =>
    simp only [optMin]
    exact congrArg some (by omega)

lemma modelPrices_cons (g : Gift) (rest : List Gift) (s : String) :
    modelPrices (g :: rest) s =
      if g.model = s then g.price :: modelPrices rest s
      else modelPrices rest s := by
  by_cases h : g.model = s
  · simp [modelPrices, List.filter_cons, h]
  · simp [modelPrices, List.filter_cons, h]

lemma minimumOfPrices_cons (x : Nat) (xs : List Nat) :
    minimumOfPrices (x :: xs) = optMin (some x) (minimumOfPrices xs) := by
  cases h : minimumOfPrices xs <;> simp [minimumOfPrices, optMin, h]

lemma updateFloor_apply (f : String → Option Nat) (k : String) (v : Nat)
    (s : String) : updateFloor f k v s = if s = k then some v else f s := rfl

lemma floorStep_eq_of_none {f : String → Option Nat} {g : Gift}
    (hfm : f g.model = none) :
    floorStep f g = updateFloor f g.model g.price := by
  unfold floorStep
  rw [hfm]

lemma floorStep_eq_of_low {f : String → Option Nat} {g : Gift} {q : Nat}
    (hfm : f g.model = some q) (hc : q = 0 ∨ g.price < q) :
    floorStep f g = updateFloor f g.model g.price := by
  unfold floorStep
  rw [hfm]
  show (if q = 0 ∨ g.price < q then updateFloor f g.model g.price else f) = _
  exact if_pos hc

lemma floorStep_eq_of_high {f : String → Option Nat} {g : Gift} {q : Nat}
    (hfm : f g.model = some q) (hc : ¬(q = 0 ∨ g.price < q)) :
    floorStep f g = f := by
  unfold floorStep
  rw [hfm]
  show (if q = 0 ∨ g.price < q then updateFloor f g.model g.price else f) = _
  exact if_neg hc

lemma floorStep_pos {f : String → Option Nat} {g : Gift}
    (hg : 0 < g.price) (hf : ∀ k p, f k = some p → 0 < p) :
    ∀ k p, floorStep f g k = some p → 0 < p := by
  intro k p hk
  cases hfm : f g.model with
  | none =>
    rw [floorStep_eq_of_none hfm, updateFloor_apply] at hk
    by_cases hks : k = g.model
    · rw [if_pos hks] at hk
      cases hk
      exact hg
    · rw [if_neg hks] at hk
      exact hf k p hk
  | some q =>
    by_cases hc : q = 0 ∨ g.price < q
    · rw [floorStep_eq_of_low hfm hc, updateFloor_apply] at hk
      by_cases hks : k = g.model
      · rw [if_pos hks] at hk
        cases hk
        exact hg
      · rw [if_neg hks] at hk
        exact hf k p hk
    · rw [floorStep_eq_of_high hfm hc] at hk
      exact hf k p hk

lemma foldl_floorStep_lookup :
    ∀ (gifts : List Gift) (f : String → Option Nat),
      (∀ g ∈ gifts, 0 < g.price) → (∀ k p, f k = some p → 0 < p) →
      ∀ s : String,
        gifts.foldl floorStep f s =
          optMin (f s) (minimumOfPrices (modelPrices gifts s)) := by
  intro gifts
  induction gifts with
  | nil =>
    intro f _ _ s
    simp only [List.foldl_nil, modelPrices, List.filter_nil, List.map_nil,
      minimumOfPrices]
    exact (optMin_none_right (f s)).symm
  | cons g rest ih =>
    intro f hpos hf s
    rw [List.foldl_cons]
    have hg : 0 < g.price := hpos g (List.mem_cons_self g rest)
    have hrest : ∀ g' ∈ rest, 0 < g'.price :=
      fun g' h => hpos g' (List.mem_cons_of_mem g h)
    have hf' : ∀ k p, floorStep f g k = some p → 0 < p := floorStep_pos hg hf
    rw [ih (floorStep f g) hrest hf' s, modelPrices_cons]
    by_cases hms : g.model = s
    · subst hms
      rw [if_pos rfl, minimumOfPrices_cons]
      cases hfm : f g.model with
      | none =>
        have hstep : floorStep f g g.model = some g.price := by
          rw [floorStep_eq_of_none hfm, updateFloor_apply]
          exact if_pos rfl
        rw [hstep]
        rfl
      | some q =>
        have hq : 0 < q := hf _ _ hfm
        by_cases hlt : g.price < q
        · have hstep : floorStep f g g.model = some g.price := by
            rw [floorStep_eq_of_low hfm (Or.inr hlt), updateFloor_apply]
            exact if_pos rfl
          rw [hstep]
          exact (optMin_lt_absorb hlt _).symm
        · have hcond : ¬(q = 0 ∨ g.price < q) := by
            push_neg
            exact ⟨by omega, by omega⟩
          have hstep : floorStep f g g.model = some q := by
            rw [floorStep_eq_of_high hfm hcond]
            exact hfm
          rw [hstep]
          exact (optMin_ge_absorb (by omega) _).symm
    · rw [if_neg hms]
      have hstep : floorStep f g s = f s := by
        cases hfm : f g.model with
        | none =>
          rw [floorStep_eq_of_none hfm, updateFloor_apply]
          exact if_neg (fun h => hms h.symm)
        | some q =>
          by_cases hc : q = 0 ∨ g.price < q
          · rw [floorStep_eq_of_low hfm hc, updateFloor_apply]
            exact if_neg (fun h => hms h.symm)
          · rw [floorStep_eq_of_high hfm hc]
      rw [hstep]

lemma lookup_collectionsPayload (f : String → Option (List Gift))
    (c : String) (g : List Gift) :
    ∀ cs : List String, c ∈ cs → f c = some g →
      List.lookup c (cs.filterMap
        (fun c' => (f c').map (fun gifts => (c', floorPrices gifts)))) =
        some (floorPrices g) := by
  intro cs
  induction cs with
  | nil => intro h; cases h
  | cons a rest ih =>
    intro hmem hf
    by_cases hca : c = a
    · subst hca
      rw [List.filterMap_cons, hf]
      simp [List.lookup]
    · rcases List.mem_cons.mp hmem with heq | htail
      · exact absurd heq hca
      · rw [List.filterMap_cons]
        cases hfa : f a with
        | none => exact ih htail hf
        | some gs =>
          have hba : (c == a) = false := beq_eq_false_iff_ne.mpr hca
          simp only [Option.map_some', List.lookup_cons, hba]
          exact ih htail hf

/-- The two-listing Tonnel response that breaks the floor computation:
a zero-priced listing followed by a higher-priced one of the same model. -/
def zeroGifts : List Gift :=
  [{ model := "m", price := 0 }, { model := "m", price := 5 }]

/-- C10 (counterexample): a stored floor price of `0` is falsy, so
`!floorPrices[gift.model]` lets the next listing of the same model
overwrite it.  On listings `[{m, 0}, {m, 5}]` the endpoint returns `5`
for model `m` although the minimum listed price is `0`. -/
theorem collections_prices_counterexample :
    floorPrices zeroGifts "m" = some 5 ∧
    minimumOfPrices (modelPrices zeroGifts "m") = some 0 ∧
    (5 : Nat) ≠ 0 := by decide

/-- C10 (amended): for each of the five hard-coded collections whose
Tonnel response arrived, and each model appearing in that response, the
returned price for the model equals the minimum price over all returned
listings of that model — provided every listed price is nonzero (a
zero-priced listing is falsy in the accumulator and is not kept as the
floor). -/
theorem collections_prices_min (fetch : String → Option (List Gift))
    (c : String) (gifts : List Gift) (m : String)
    (hc : c ∈ collectionsList) (hf : fetch c = some gifts)
    (hpos : ∀ g ∈ gifts, 0 < g.price) :
    collectionsPrices false fetch = Except.ok (collectionsPayload fetch) ∧
    List.lookup c (collectionsPayload fetch) = some (floorPrices gifts) ∧
    floorPrices gifts m = minimumOfPrices (modelPrices gifts m) := by
  refine ⟨rfl, lookup_collectionsPayload fetch c gifts collectionsList hc hf,
    ?_⟩
  have h := foldl_floorStep_lookup gifts (fun _ => none) hpos
    (by intro k p hk; cases hk) m
  simpa [floorPrices, optMin] using h

/-- A Tonnel oracle returning two listings for the `toy bear` query. -/
def exFetch : String → Option (List Gift) :=
  fun c => if c = "toy bear" then
    some [{ model := "m", price := 3 }, { model := "m", price := 7 }]
  else none

/-- Witness for the amended floor-price theorem on the concrete
response: the payload maps `toy bear` to its floor object and the floor
of model `m` is the minimum of its listed prices. -/
theorem collections_prices_min_witness :
    List.lookup "toy bear" (collectionsPayload exFetch) =
      some (floorPrices [{ model := "m", price := 3 },
        { model := "m", price := 7 }]) ∧
    floorPrices [{ model := "m", price := 3 },
      { model := "m", price := 7 }] "m" =
      minimumOfPrices (modelPrices [{ model := "m", price := 3 },
        { model := "m", price := 7 }] "m") := by
  have h := collections_prices_min exFetch "toy bear"
    [{ model := "m", price := 3 }, { model := "m", price := 7 }] "m"
    (by decide) (by decide) (by decide)
  exact ⟨h.2.1, h.2.2⟩

end ImTrierbot
